import Mathlib

/-!
Verification of the lexer and Pratt parser front end of the language
repository.

The lexer is embedded from the repository's `lexer.c` (the revision whose
token enumeration contains `TOKEN_PIPE`, `TOKEN_MATCH`, `TOKEN_FN`, ...),
the parser from `parser.c`.  A C source buffer is modelled as a
`List Char`: the terminating `'\0'` sentinel corresponds to the empty
list, and the source is assumed null-free (the spec guarantees a
null-free buffer with a terminating sentinel).  `char` classification
functions (`isdigit`, `isalpha`, `isalnum`) are modelled in the default
C locale, i.e. on ASCII.
-/

/-- ASCII `isdigit` from `<ctype.h>` in the default C locale, stated on
code points: codes 48-57 are the digits `'0'`-`'9'`. -/
def isdigit (c : Char) : Bool :=
  48 ≤ c.toNat && c.toNat ≤ 57

/-- ASCII `isalpha` from `<ctype.h>` in the default C locale, stated on
code points: codes 97-122 are `'a'`-`'z'` and 65-90 are `'A'`-`'Z'`. -/
def isalpha (c : Char) : Bool :=
  (97 ≤ c.toNat && c.toNat ≤ 122) || (65 ≤ c.toNat && c.toNat ≤ 90)

/-- ASCII `isalnum` from `<ctype.h>` in the default C locale. -/
def isalnum (c : Char) : Bool :=
  isalpha c || isdigit c

/-- Token kinds.  Constructors up to `TOKEN_IMPORT` are the `TokenType`
enumeration of the repository's `lexer.h`.  The two final constructors
`TOKEN_PIPELINE` and `TOKEN_LARROW` are modelled from the spec: they are
referenced by `parser.c` (`init_parse_rules`) but the revision of
`lexer.h` declaring them is not in the source tree; the spec describes
them as the pipeline operator and the struct-update token. -/
inductive TokenType where
  | TOKEN_IDENTIFIER
  | TOKEN_NUMBER
  | TOKEN_STRING
  | TOKEN_LET
  | TOKEN_FUNC
  | TOKEN_EQUAL
  | TOKEN_LPAREN
  | TOKEN_RPAREN
  | TOKEN_EOF
  | TOKEN_ERROR
  | TOKEN_EQUAL_EQUAL
  | TOKEN_BANG_EQUAL
  | TOKEN_GREATER_EQUAL
  | TOKEN_LESS_EQUAL
  | TOKEN_GREATER
  | TOKEN_LESS
  | TOKEN_PLUS
  | TOKEN_MINUS
  | TOKEN_STAR
  | TOKEN_SLASH
  | TOKEN_COMMA
  | TOKEN_SEMICOLON
  | TOKEN_COLON
  | TOKEN_BANG
  | TOKEN_LBRACE
  | TOKEN_RBRACE
  | TOKEN_LBRACKET
  | TOKEN_RBRACKET
  | TOKEN_DOT
  | TOKEN_AND
  | TOKEN_OR
  | TOKEN_ARROW
  | TOKEN_QUESTION
  | TOKEN_REFLECT
  | TOKEN_IF
  | TOKEN_ELSE
  | TOKEN_TRUE
  | TOKEN_FALSE
  | TOKEN_PIPE
  | TOKEN_UNDERSCORE
  | TOKEN_MATCH
  | TOKEN_FN
  | TOKEN_DOLLAR
  | TOKEN_ASYNC
  | TOKEN_AWAIT
  | TOKEN_THROW
  | TOKEN_TRY
  | TOKEN_CATCH
  | TOKEN_IMPORT
  | TOKEN_PIPELINE
  | TOKEN_LARROW
  deriving DecidableEq, Repr

open TokenType

/-- A lexical token.  In C the lexeme is a `(start, length)` span into
the source buffer (or, for `TOKEN_ERROR`, into a static message
string); here it is materialised as the spanned character list. -/
structure Token where
  type : TokenType
  lexeme : List Char
  line : Nat
  deriving DecidableEq, Repr

/-- Scanner state: the unread remainder of the source buffer
(`lexer->current` up to the `'\0'` sentinel) and the current line.
The `start` pointer of the C struct only lives between the assignment
`lexer->start = lexer->current` and `make_token` inside a single
`lexer_next` call, so it is not part of the persistent state. -/
structure Lexer where
  current : List Char
  line : Nat
  deriving DecidableEq, Repr

/-- `lexer_init`: cursor at the start of the buffer, line 1. -/
def lexer_init (source : List Char) : Lexer :=
  { current := source, line := 1 }

/-- `skip_whitespace`: skips spaces, carriage returns and tabs, counts
and skips newlines, and also skips any other control character below 32;
stops at end of input or at the first real character. -/
def skip_whitespace : List Char → Nat → List Char × Nat
  | [], line => ([], line)
  | c :: rest, line =>
    if c = ' ' || c = '\r' || c = '\t' then skip_whitespace rest line
    else if c = '\n' then skip_whitespace rest (line + 1)
    else if c.toNat < 32 then skip_whitespace rest line
    else (c :: rest, line)

/-- Characters that continue an identifier (`isalnum` or underscore). -/
def is_ident_char (c : Char) : Bool :=
  isalnum c || c = '_'

/-- The keyword reclassification of `identifier()`: the finished lexeme
is compared against each keyword (length plus `strncmp`, which for a
full-length comparison is exactly lexeme equality). -/
def keyword_type (lex : List Char) : TokenType :=
  if lex = "let".toList then TOKEN_LET
  else if lex = "func".toList then TOKEN_FUNC
  else if lex = "if".toList then TOKEN_IF
  else if lex = "else".toList then TOKEN_ELSE
  else if lex = "true".toList then TOKEN_TRUE
  else if lex = "false".toList then TOKEN_FALSE
  else if lex = "match".toList then TOKEN_MATCH
  else if lex = "fn".toList then TOKEN_FN
  else if lex = "async".toList then TOKEN_ASYNC
  else if lex = "await".toList then TOKEN_AWAIT
  else if lex = "throw".toList then TOKEN_THROW
  else if lex = "try".toList then TOKEN_TRY
  else if lex = "catch".toList then TOKEN_CATCH
  else if lex = "import".toList then TOKEN_IMPORT
  else TOKEN_IDENTIFIER

/-- The scanning loop of `string()`: consumes characters until the
closing quote or end of input, counting embedded newlines.  Returns
`(some body, remainder-after-closing-quote, line)` on success and
`(none, [], line)` when the input ends first. -/
def scan_string : List Char → Nat → Option (List Char) × List Char × Nat
  | [], line => (none, [], line)
  | c :: rest, line =>
    if c = '"' then (some [], rest, line)
    else
      match scan_string rest (if c = '\n' then line + 1 else line) with
      | (body, rem, line') => (body.map (fun b => c :: b), rem, line')

/-- The scanning loop of the block-comment branch of `lexer_next`:
consumes characters until the two-character marker `*/` (detected with
`peek`/`peek_next`) or end of input, counting newlines, then consumes
the marker itself when present. -/
def block_comment_scan : List Char → Nat → List Char × Nat
  | [], line => ([], line)
  | c :: rest, line =>
    if c = '*' && rest.headD '\x00' = '/' then (rest.drop 1, line)
    else block_comment_scan rest (if c = '\n' then line + 1 else line)

theorem skip_whitespace_length_le (l : List Char) (n : Nat) :
    (skip_whitespace l n).1.length ≤ l.length := by
  induction l generalizing n with
  | nil => simp [skip_whitespace]
  | cons c rest ih =>
    simp only [skip_whitespace]
    split
    · exact Nat.le_trans (ih n) (Nat.le_succ _)
    · split
      · exact Nat.le_trans (ih (n + 1)) (Nat.le_succ _)
      · split
        · exact Nat.le_trans (ih n) (Nat.le_succ _)
        · simp

theorem block_comment_scan_length_le (l : List Char) (n : Nat) :
    (block_comment_scan l n).1.length ≤ l.length := by
  induction l generalizing n with
  | nil => simp [block_comment_scan]
  | cons c rest ih =>
    simp only [block_comment_scan]
    split
    · calc (rest.drop 1).length ≤ rest.length := by
            simp [List.length_drop]
        _ ≤ rest.length + 1 := Nat.le_succ _
    · exact Nat.le_trans (ih _) (Nat.le_succ _)

/-- C's two-character lookahead helper `match(expected, lexer)`: at end
of input or on a mismatch it leaves the cursor in place and reports
failure, otherwise it consumes the expected character. -/
def match_char (expected : Char) (l : List Char) : Bool × List Char :=
  match l with
  | [] => (false, [])
  | x :: xs => if x = expected then (true, xs) else (false, x :: xs)

/-- C's `string()` after the opening quote has been consumed: scan to
the closing quote (or end of input) and build either the string token
spanning both quotes or the fixed-message error token. -/
def string (rest : List Char) (line : Nat) : Token × Lexer :=
  match scan_string rest line with
  | (some body, rem, line2) =>
    (⟨TOKEN_STRING, '"' :: body ++ ['"'], line2⟩, ⟨rem, line2⟩)
  | (none, rem, line2) =>
    (⟨TOKEN_ERROR, "Unterminated string.".toList, line2⟩, ⟨rem, line2⟩)

/-- The body of `lexer_next`, structured on an explicit fuel argument
that bounds the number of tail-recursive re-entries used to skip
comments.  Each re-entry consumes at least the two characters of the
comment opener, so a fuel of `current.length + 1` (supplied by the
`lexer_next` wrapper below) always suffices; the fuel-exhausted branch
is unreachable under that bound and conservatively reports end of
input.  The `peek`/`peek_next` reads of the C code appear as `headD`
with the `'\0'` sentinel standing for end of input (sources are
null-free). -/
def lexer_next_aux : Nat → Lexer → Token × Lexer
  | 0, st => (⟨TOKEN_EOF, [], st.line⟩, ⟨[], st.line⟩)
  | fuel + 1, st =>
    match skip_whitespace st.current st.line with
    | (cur, line) =>
      match cur with
      | [] => (⟨TOKEN_EOF, [], line⟩, ⟨[], line⟩)
      | c :: rest =>
        if isalpha c || c = '_' then
          (⟨keyword_type (c :: rest.takeWhile is_ident_char),
            c :: rest.takeWhile is_ident_char, line⟩,
           ⟨rest.dropWhile is_ident_char, line⟩)
        else if isdigit c then
          if (rest.dropWhile isdigit).headD '\x00' = '.' ∧
              isdigit (((rest.dropWhile isdigit).drop 1).headD '\x00') = true then
            (⟨TOKEN_NUMBER, c :: rest.takeWhile isdigit ++
                '.' :: ((rest.dropWhile isdigit).drop 1).takeWhile isdigit, line⟩,
             ⟨((rest.dropWhile isdigit).drop 1).dropWhile isdigit, line⟩)
          else
            (⟨TOKEN_NUMBER, c :: rest.takeWhile isdigit, line⟩,
             ⟨rest.dropWhile isdigit, line⟩)
        else if c = '"' then string rest line
        else if c = '(' then (⟨TOKEN_LPAREN, [c], line⟩, ⟨rest, line⟩)
        else if c = ')' then (⟨TOKEN_RPAREN, [c], line⟩, ⟨rest, line⟩)
        else if c = '{' then (⟨TOKEN_LBRACE, [c], line⟩, ⟨rest, line⟩)
        else if c = '}' then (⟨TOKEN_RBRACE, [c], line⟩, ⟨rest, line⟩)
        else if c = '=' then
          if (match_char '=' rest).1 then
            (⟨TOKEN_EQUAL_EQUAL, [c, '='], line⟩, ⟨(match_char '=' rest).2, line⟩)
          else (⟨TOKEN_EQUAL, [c], line⟩, ⟨rest, line⟩)
        else if c = '!' then
          if (match_char '=' rest).1 then
            (⟨TOKEN_BANG_EQUAL, [c, '='], line⟩, ⟨(match_char '=' rest).2, line⟩)
          else (⟨TOKEN_BANG, [c], line⟩, ⟨rest, line⟩)
        else if c = '>' then
          if (match_char '=' rest).1 then
            (⟨TOKEN_GREATER_EQUAL, [c, '='], line⟩, ⟨(match_char '=' rest).2, line⟩)
          else (⟨TOKEN_GREATER, [c], line⟩, ⟨rest, line⟩)
        else if c = '<' then
          if (match_char '=' rest).1 then
            (⟨TOKEN_LESS_EQUAL, [c, '='], line⟩, ⟨(match_char '=' rest).2, line⟩)
          else (⟨TOKEN_LESS, [c], line⟩, ⟨rest, line⟩)
        else if c = '+' then (⟨TOKEN_PLUS, [c], line⟩, ⟨rest, line⟩)
        else if c = '-' then
          if (match_char '>' rest).1 then
            (⟨TOKEN_ARROW, [c, '>'], line⟩, ⟨(match_char '>' rest).2, line⟩)
          else (⟨TOKEN_MINUS, [c], line⟩, ⟨rest, line⟩)
        else if c = '*' then (⟨TOKEN_STAR, [c], line⟩, ⟨rest, line⟩)
        else if c = '/' then
          if (match_char '/' rest).1 then
            lexer_next_aux fuel
              ⟨(match_char '/' rest).2.dropWhile (fun x => x ≠ '\n'), line⟩
          else if (match_char '*' rest).1 then
            lexer_next_aux fuel
              ⟨(block_comment_scan (match_char '*' rest).2 line).1,
               (block_comment_scan (match_char '*' rest).2 line).2⟩
          else (⟨TOKEN_SLASH, [c], line⟩, ⟨rest, line⟩)
        else if c = ',' then (⟨TOKEN_COMMA, [c], line⟩, ⟨rest, line⟩)
        else if c = ';' then (⟨TOKEN_SEMICOLON, [c], line⟩, ⟨rest, line⟩)
        else if c = ':' then (⟨TOKEN_COLON, [c], line⟩, ⟨rest, line⟩)
        else if c = '.' then (⟨TOKEN_DOT, [c], line⟩, ⟨rest, line⟩)
        else if c = '[' then (⟨TOKEN_LBRACKET, [c], line⟩, ⟨rest, line⟩)
        else if c = ']' then (⟨TOKEN_RBRACKET, [c], line⟩, ⟨rest, line⟩)
        else if c = '&' then
          if (match_char '&' rest).1 then
            (⟨TOKEN_AND, [c, '&'], line⟩, ⟨(match_char '&' rest).2, line⟩)
          else (⟨TOKEN_ERROR, "Unexpected '&'.".toList, line⟩, ⟨rest, line⟩)
        else if c = '|' then
          if (match_char '|' rest).1 then
            (⟨TOKEN_OR, [c, '|'], line⟩, ⟨(match_char '|' rest).2, line⟩)
          else (⟨TOKEN_PIPE, [c], line⟩, ⟨rest, line⟩)
        else if c = '?' then (⟨TOKEN_QUESTION, [c], line⟩, ⟨rest, line⟩)
        else if c = '#' then (⟨TOKEN_REFLECT, [c], line⟩, ⟨rest, line⟩)
        else if c = '_' then (⟨TOKEN_UNDERSCORE, [c], line⟩, ⟨rest, line⟩)
        else if c = '$' then (⟨TOKEN_DOLLAR, [c], line⟩, ⟨rest, line⟩)
        else (⟨TOKEN_ERROR, "Unexpected character.".toList, line⟩, ⟨rest, line⟩)

/-- `lexer_next`: consumes and returns exactly one token.  The fuel of
the auxiliary function is instantiated with `current.length + 1`, which
always suffices (see `lexer_next_aux`). -/
def lexer_next (st : Lexer) : Token × Lexer :=
  lexer_next_aux (st.current.length + 1) st

example : (lexer_next (lexer_init "let x".toList)).1 = ⟨TOKEN_LET, "let".toList, 1⟩ := rfl

example :
    (lexer_next (lexer_init "  // c\n 42".toList)).1 = ⟨TOKEN_NUMBER, "42".toList, 2⟩ := rfl

example :
    (lexer_next (lexer_init "/* a\n*/ |".toList)).1 = ⟨TOKEN_PIPE, "|".toList, 2⟩ := rfl

example : (lexer_next (lexer_init "_".toList)).1 = ⟨TOKEN_IDENTIFIER, "_".toList, 1⟩ := rfl

example :
    (lexer_next (lexer_init "\"ab".toList)).1 =
      ⟨TOKEN_ERROR, "Unterminated string.".toList, 1⟩ := rfl

example : (lexer_next (lexer_init "3.5x".toList)).1 = ⟨TOKEN_NUMBER, "3.5".toList, 1⟩ := rfl

example : (lexer_next (lexer_init "3.x".toList)).1 = ⟨TOKEN_NUMBER, "3".toList, 1⟩ := rfl

/-!
## AST node model

`parser.c` builds nodes of the kinds below.  The `ast.h` revision
declaring the kinds `AST_PIPELINE`, `AST_STRUCT_LITERAL`,
`AST_STRUCT_UPDATE`, `AST_LIST_LITERAL`, `AST_PROPERTY_ACCESS`,
`AST_IMPORT_STATEMENT`, `AST_LET_BANG_STATEMENT` and `AST_BOOL_LITERAL`
is not in the source tree; their field shapes are modelled from the
spec's data model together with the field assignments in `parser.c`.
Child pointers that the parser may leave `NULL` are `Option`s; owned
arrays are `List`s (the parser only stores non-null pointers into
them).  A match arm is the `MatchArm` pair of pattern and result
expression. -/
inductive ASTNode where
  | AST_LITERAL (token : Token)
  | AST_BOOL_LITERAL (value : Bool)
  | AST_BINARY (left : Option ASTNode) (op : Token) (right : Option ASTNode)
  | AST_PIPELINE (left : Option ASTNode) (right : Option ASTNode)
  | AST_VARIABLE (name : Token)
  | AST_GROUPING (expression : Option ASTNode)
  | AST_PROPERTY_ACCESS (object : Option ASTNode) (property : Token)
  | AST_CALL (callee : Option ASTNode) (arguments : List ASTNode)
  | AST_LIST_LITERAL (elements : List ASTNode)
  | AST_STRUCT_LITERAL (keys : List Token) (values : List ASTNode)
  | AST_STRUCT_UPDATE (base : Option ASTNode) (keys : List Token) (values : List ASTNode)
  | AST_LAMBDA_EXPRESSION (params : List Token) (body : List ASTNode)
  | AST_LET_STATEMENT (name : Token) (initializer : ASTNode)
  | AST_LET_BANG_STATEMENT (name : Token) (initializer : ASTNode)
  | AST_FUNCTION_STATEMENT (name : Token) (params : List Token) (body : List ASTNode)
  | AST_MATCH_STATEMENT (value : Option ASTNode)
      (arms : List (Option ASTNode × Option ASTNode))
  | AST_IMPORT_STATEMENT (path : Token)
  | AST_EXPRESSION_STATEMENT (expression : Option ASTNode)

open ASTNode

/-- The prefix (null-denotation) handlers that `init_parse_rules`
installs, as a closed enumeration; `nud_null` is the default. -/
inductive NudKind where
  | nud_null
  | parse_literal
  | parse_grouping
  | parse_variable
  | parse_lambda_expression
  | parse_list_literal
  | parse_struct_literal
  deriving DecidableEq, Repr

/-- The infix (left-denotation) handlers that `init_parse_rules`
installs, as a closed enumeration; `led_null` is the default. -/
inductive LedKind where
  | led_null
  | parse_binary
  | parse_call
  | led_dot
  | led_struct_update
  deriving DecidableEq, Repr

/-- A `ParseRule`: prefix handler, infix handler, left binding power.
In C the handler slots are function pointers and are never `NULL`
(every slot is initialised with `nud_null`/`led_null`), so the
`!prefix_rule->nud` and `!infix_rule->led` guards in
`parse_expression` can never fire and are not modelled. -/
structure ParseRule where
  nud : NudKind
  led : LedKind
  lbp : Nat
  deriving DecidableEq, Repr

/-- The dispatch table built by `init_parse_rules`, as a total function:
every entry defaults to `nud_null`/`led_null` with binding power 0 and
the listed entries are overridden. -/
def get_rule (type : TokenType) : ParseRule :=
  let rule := fun n l b => ParseRule.mk n l b
  match type with
  | TOKEN_LPAREN => rule .parse_grouping .parse_call 30
  | TOKEN_NUMBER => rule .parse_literal .led_null 0
  | TOKEN_IDENTIFIER => rule .parse_variable .led_null 0
  | TOKEN_FN => rule .parse_lambda_expression .led_null 0
  | TOKEN_STRING => rule .parse_literal .led_null 0
  | TOKEN_TRUE => rule .parse_literal .led_null 0
  | TOKEN_FALSE => rule .parse_literal .led_null 0
  | TOKEN_LBRACKET => rule .parse_list_literal .led_null 0
  | TOKEN_LBRACE => rule .parse_struct_literal .led_null 0
  | TOKEN_PIPELINE => rule .nud_null .parse_binary 5
  | TOKEN_PLUS => rule .nud_null .parse_binary 10
  | TOKEN_MINUS => rule .nud_null .parse_binary 10
  | TOKEN_STAR => rule .nud_null .parse_binary 20
  | TOKEN_SLASH => rule .nud_null .parse_binary 20
  | TOKEN_DOT => rule .nud_null .led_dot 40
  | TOKEN_LARROW => rule .nud_null .led_struct_update 50
  | _ => rule .nud_null .led_null 0

/-- A pull-based token source: the parser only interacts with its lexer
through `lexer_next(parser->lexer)`, abstracted here so that claims
stated over explicit token streams use the same parser embedding. -/
class TokenSource (σ : Type) where
  next : σ → Token × σ

instance : TokenSource Lexer where
  next := lexer_next

/-- Modelled from the spec: a token source that replays a fixed token
list and then returns end-of-input tokens forever.  Used for the claims
whose token streams contain `TOKEN_PIPELINE`: the lexer revision that
turns `|>` into `TOKEN_PIPELINE` is not in the source tree (the present
`lexer.c` lexes `|` as `TOKEN_PIPE`), while the spec fixes the pipeline
operator `|>` with binding power 5. -/
instance : TokenSource (List Token) where
  next
    | [] => (⟨TOKEN_EOF, [], 1⟩, [])
    | t :: ts => (t, ts)

/-- Parser state from `parser.h`: token source, one-token window
(current/previous), error flag and the inert panic flag. -/
structure ParserState (σ : Type) where
  stream : σ
  current : Token
  previous : Token
  had_error : Bool
  panic_mode : Bool

variable {σ : Type} [TokenSource σ]

/-- `parser_advance`: shift the window by one token. -/
def parser_advance (p : ParserState σ) : ParserState σ :=
  let (tok, s') := TokenSource.next p.stream
  { p with previous := p.current, current := tok, stream := s' }

/-- Record a parse error: the C code prints a message and sets
`had_error`; only the flag is modelled. -/
def set_error (p : ParserState σ) : ParserState σ :=
  { p with had_error := true }

/-- `parser_consume`: advance when the current token has the expected
kind, otherwise report a parse error. -/
def parser_consume (p : ParserState σ) (type : TokenType) : ParserState σ :=
  if p.current.type = type then parser_advance p else set_error p

/-- `parse_literal`: boolean keywords become `AST_BOOL_LITERAL`, other
literal tokens an `AST_LITERAL` holding the token. -/
def parse_literal (token : Token) : ASTNode :=
  match token.type with
  | TOKEN_TRUE => AST_BOOL_LITERAL true
  | TOKEN_FALSE => AST_BOOL_LITERAL false
  | _ => AST_LITERAL token

/-- `nud_null`: the default prefix handler; silently yields no node at
end of input, otherwise reports "Unexpected token". -/
def nud_null (p : ParserState σ) (token : Token) : Option ASTNode × ParserState σ :=
  if token.type = TOKEN_EOF then (none, p) else (none, set_error p)

/-- `led_null`: the default infix handler; always reports "Unexpected
infix operator". -/
def led_null (p : ParserState σ) (left : Option ASTNode) (token : Token) :
    Option ASTNode × ParserState σ :=
  (none, set_error p)

/-- `led_dot`: member access; requires an identifier after the dot and
stores `parser->previous` as the property token. -/
def led_dot (p : ParserState σ) (left : Option ASTNode) (dot : Token) :
    Option ASTNode × ParserState σ :=
  let p1 := parser_consume p TOKEN_IDENTIFIER
  (some (AST_PROPERTY_ACCESS left p1.previous), p1)

/-- `parse_import_statement`: `import "path"`. -/
def parse_import_statement (p : ParserState σ) : Option ASTNode × ParserState σ :=
  let p1 := parser_advance p
  if p1.current.type ≠ TOKEN_STRING then (none, set_error p1)
  else (some (AST_IMPORT_STATEMENT p1.current), parser_advance p1)

/-- `parse_parameter_list`, with the growing parameter array as an
accumulator; a malformed list reports an error and yields the empty
list (the C code frees the partial array and zeroes the out-params). -/
def parse_parameter_list : Nat → List Token → ParserState σ → List Token × ParserState σ
  | 0, acc, p => (acc, p)
  | fuel + 1, acc, p =>
    if p.current.type = TOKEN_RPAREN then (acc, parser_advance p)
    else if p.current.type ≠ TOKEN_IDENTIFIER then ([], set_error p)
    else
      let acc' := acc ++ [p.current]
      let p1 := parser_advance p
      if p1.current.type = TOKEN_COMMA then parse_parameter_list fuel acc' (parser_advance p1)
      else if p1.current.type ≠ TOKEN_RPAREN then ([], set_error p1)
      else parse_parameter_list fuel acc' p1

mutual

/-- `parse_expression(parser, precedence)`: the Pratt engine.  Advances
one token, dispatches the prefix handler of the consumed token, then
runs the precedence-climbing loop (`pratt_loop`).  The `!prefix_rule->nud`
guard of the C code can never fire (every table entry holds `nud_null`
at least) and is not modelled. -/
def parse_expression : Nat → Nat → ParserState σ → Option ASTNode × ParserState σ
  | 0, _, p => (none, p)
  | fuel + 1, precedence, p =>
    let p1 := parser_advance p
    match run_nud fuel (get_rule p1.previous.type).nud p1 p1.previous with
    | (left, p2) => pratt_loop fuel precedence left p2
  termination_by structural fuel => fuel

/-- The `while` loop of `parse_expression`: as long as the upcoming
token binds tighter than `precedence` and is not end-of-input, advance
and fold the infix handler over the left-hand tree. -/
def pratt_loop : Nat → Nat → Option ASTNode → ParserState σ →
    Option ASTNode × ParserState σ
  | 0, _, left, p => (left, p)
  | fuel + 1, precedence, left, p =>
    if precedence < (get_rule p.current.type).lbp ∧ p.current.type ≠ TOKEN_EOF then
      let p1 := parser_advance p
      match run_led fuel (get_rule p1.previous.type).led p1 left p1.previous with
      | (left', p2) => pratt_loop fuel precedence left' p2
    else (left, p)
  termination_by structural fuel => fuel

/-- Prefix-handler dispatch (the call through `prefix_rule->nud`). -/
def run_nud : Nat → NudKind → ParserState σ → Token → Option ASTNode × ParserState σ
  | 0, _, p, _ => (none, p)
  | fuel + 1, kind, p, token =>
    match kind with
    | .nud_null => nud_null p token
    | .parse_literal => (some (parse_literal token), p)
    | .parse_grouping => parse_grouping fuel p token
    | .parse_variable => (some (AST_VARIABLE token), p)
    | .parse_lambda_expression => parse_lambda_expression fuel p token
    | .parse_list_literal => parse_list_literal fuel p token
    | .parse_struct_literal => parse_struct_literal fuel p token
  termination_by structural fuel => fuel

/-- Infix-handler dispatch (the call through `infix_rule->led`). -/
def run_led : Nat → LedKind → ParserState σ → Option ASTNode → Token →
    Option ASTNode × ParserState σ
  | 0, _, p, _, _ => (none, p)
  | fuel + 1, kind, p, left, token =>
    match kind with
    | .led_null => led_null p left token
    | .parse_binary => parse_binary fuel p left token
    | .parse_call => parse_call fuel p left token
    | .led_dot => led_dot p left token
    | .led_struct_update => parse_struct_update fuel p left
  termination_by structural fuel => fuel

/-- `parse_binary`: parse the right operand at this operator's binding
power (strict comparison in the loop gives left-associativity) and
build `AST_PIPELINE` for the pipeline token, `AST_BINARY` otherwise. -/
def parse_binary : Nat → ParserState σ → Option ASTNode → Token →
    Option ASTNode × ParserState σ
  | 0, p, _, _ => (none, p)
  | fuel + 1, p, left, token =>
    let precedence := (get_rule token.type).lbp
    match parse_expression fuel precedence p with
    | (right, p1) =>
      if token.type = TOKEN_PIPELINE then (some (AST_PIPELINE left right), p1)
      else (some (AST_BINARY left token right), p1)
  termination_by structural fuel => fuel

/-- `parse_grouping`: `( expr )`; reports an error and discards the
subtree when the closing parenthesis is missing. -/
def parse_grouping : Nat → ParserState σ → Token → Option ASTNode × ParserState σ
  | 0, p, _ => (none, p)
  | fuel + 1, p, _token =>
    match parse_expression fuel 0 p with
    | (expr, p1) =>
      if p1.current.type ≠ TOKEN_RPAREN then (none, set_error p1)
      else (some (AST_GROUPING expr), parser_advance p1)
  termination_by structural fuel => fuel

/-- `parse_call`: the infix handler for `(`; collects the argument
list then requires `)`. -/
def parse_call : Nat → ParserState σ → Option ASTNode → Token →
    Option ASTNode × ParserState σ
  | 0, p, _, _ => (none, p)
  | fuel + 1, p, callee, _token =>
    match
      (if p.current.type = TOKEN_RPAREN then ([], p) else parse_call_args fuel [] p : _)
    with
    | (args, p1) =>
      let p2 := parser_consume p1 TOKEN_RPAREN
      (some (AST_CALL callee args), p2)
  termination_by structural fuel => fuel

/-- The do-while argument loop of `parse_call`: refuses to start an
argument once 255 are collected (reporting an error), otherwise parses
one argument and continues over a comma. -/
def parse_call_args : Nat → List ASTNode → ParserState σ →
    List ASTNode × ParserState σ
  | 0, acc, p => (acc, p)
  | fuel + 1, acc, p =>
    if 255 ≤ acc.length then (acc, set_error p)
    else
      match parse_expression fuel 0 p with
      | (none, p1) => (acc, p1)
      | (some arg, p1) =>
        if p1.current.type = TOKEN_COMMA then
          parse_call_args fuel (acc ++ [arg]) (parser_advance p1)
        else (acc ++ [arg], p1)
  termination_by structural fuel => fuel

/-- `parse_list_literal`: `[ e, ... ]`; a failed element aborts the
whole literal (`return NULL`), otherwise `]` is required. -/
def parse_list_literal : Nat → ParserState σ → Token → Option ASTNode × ParserState σ
  | 0, p, _ => (none, p)
  | fuel + 1, p, _lbracket =>
    match
      (if p.current.type ≠ TOKEN_RBRACKET then parse_list_elems fuel [] p
       else (some [], p) : _)
    with
    | (none, p1) => (none, p1)
    | (some elements, p1) =>
      let p2 := parser_consume p1 TOKEN_RBRACKET
      (some (AST_LIST_LITERAL elements), p2)
  termination_by structural fuel => fuel

/-- The do-while element loop of `parse_list_literal`. -/
def parse_list_elems : Nat → List ASTNode → ParserState σ →
    Option (List ASTNode) × ParserState σ
  | 0, acc, p => (some acc, p)
  | fuel + 1, acc, p =>
    match parse_expression fuel 0 p with
    | (none, p1) => (none, p1)
    | (some e, p1) =>
      let acc' := acc ++ [e]
      let p2 := if p1.current.type = TOKEN_COMMA then parser_advance p1 else p1
      if p2.current.type ≠ TOKEN_RBRACKET ∧ p2.current.type ≠ TOKEN_EOF then
        parse_list_elems fuel acc' p2
      else (some acc', p2)
  termination_by structural fuel => fuel

/-- `parse_struct_literal`: `{ key = value, ... }` as a prefix handler;
a malformed field aborts the literal, otherwise `}` is required. -/
def parse_struct_literal : Nat → ParserState σ → Token → Option ASTNode × ParserState σ
  | 0, p, _ => (none, p)
  | fuel + 1, p, _lbrace =>
    match
      (if p.current.type ≠ TOKEN_RBRACE then parse_struct_fields fuel [] [] p
       else (some ([], []), p) : _)
    with
    | (none, p1) => (none, p1)
    | (some (keys, values), p1) =>
      let p2 := parser_consume p1 TOKEN_RBRACE
      (some (AST_STRUCT_LITERAL keys values), p2)
  termination_by structural fuel => fuel

/-- The do-while field loop of `parse_struct_literal`. -/
def parse_struct_fields : Nat → List Token → List ASTNode → ParserState σ →
    Option (List Token × List ASTNode) × ParserState σ
  | 0, keys, values, p => (some (keys, values), p)
  | fuel + 1, keys, values, p =>
    if p.current.type ≠ TOKEN_IDENTIFIER then (none, set_error p)
    else
      let key := p.current
      let p1 := parser_consume (parser_advance p) TOKEN_EQUAL
      match parse_expression fuel 0 p1 with
      | (none, p2) => (none, p2)
      | (some value, p2) =>
        let keys' := keys ++ [key]
        let values' := values ++ [value]
        let p3 := if p2.current.type = TOKEN_COMMA then parser_advance p2 else p2
        if p3.current.type ≠ TOKEN_RBRACE ∧ p3.current.type ≠ TOKEN_EOF then
          parse_struct_fields fuel keys' values' p3
        else (some (keys', values'), p3)
  termination_by structural fuel => fuel

/-- `parse_struct_update` (reached through `led_struct_update`): first
blindly consumes the token after the operator (the `{`), then parses
`key = value` pairs like a struct literal, with the base expression
attached. -/
def parse_struct_update : Nat → ParserState σ → Option ASTNode →
    Option ASTNode × ParserState σ
  | 0, p, _ => (none, p)
  | fuel + 1, p, base =>
    let p0 := parser_advance p
    match
      (if p0.current.type ≠ TOKEN_RBRACE then parse_struct_update_fields fuel [] [] p0
       else (some ([], []), p0) : _)
    with
    | (none, p1) => (none, p1)
    | (some (keys, values), p1) =>
      let p2 := parser_consume p1 TOKEN_RBRACE
      (some (AST_STRUCT_UPDATE base keys values), p2)
  termination_by structural fuel => fuel

/-- The do-while field loop of `parse_struct_update` (duplicated from
the struct-literal loop in the C source). -/
def parse_struct_update_fields : Nat → List Token → List ASTNode → ParserState σ →
    Option (List Token × List ASTNode) × ParserState σ
  | 0, keys, values, p => (some (keys, values), p)
  | fuel + 1, keys, values, p =>
    if p.current.type ≠ TOKEN_IDENTIFIER then (none, set_error p)
    else
      let key := p.current
      let p1 := parser_consume (parser_advance p) TOKEN_EQUAL
      match parse_expression fuel 0 p1 with
      | (none, p2) => (none, p2)
      | (some value, p2) =>
        let keys' := keys ++ [key]
        let values' := values ++ [value]
        let p3 := if p2.current.type = TOKEN_COMMA then parser_advance p2 else p2
        if p3.current.type ≠ TOKEN_RBRACE ∧ p3.current.type ≠ TOKEN_EOF then
          parse_struct_update_fields fuel keys' values' p3
        else (some (keys', values'), p3)
  termination_by structural fuel => fuel

/-- `parse_lambda_expression`: `fn (params) -> { body }` as a prefix
handler. -/
def parse_lambda_expression : Nat → ParserState σ → Token →
    Option ASTNode × ParserState σ
  | 0, p, _ => (none, p)
  | fuel + 1, p, _token =>
    if p.current.type ≠ TOKEN_LPAREN then (none, set_error p)
    else
      match parse_parameter_list fuel [] (parser_advance p) with
      | (params, p1) =>
        if p1.had_error then (none, p1)
        else if p1.current.type ≠ TOKEN_ARROW then (none, set_error p1)
        else
          let p2 := parser_advance p1
          if p2.current.type ≠ TOKEN_LBRACE then (none, set_error p2)
          else
            match parse_block fuel [] (parser_advance p2) with
            | (body, p3) =>
              if p3.had_error then (none, p3)
              else (some (AST_LAMBDA_EXPRESSION params body), p3)
  termination_by structural fuel => fuel

/-- `parse_block`: statements until `}` (required) or end of input; a
failed statement or a missing `}` discards the collected list. -/
def parse_block : Nat → List ASTNode → ParserState σ → List ASTNode × ParserState σ
  | 0, acc, p => (acc, p)
  | fuel + 1, acc, p =>
    if p.current.type ≠ TOKEN_RBRACE ∧ p.current.type ≠ TOKEN_EOF then
      match parse_statement fuel p with
      | (none, p1) => ([], p1)
      | (some stmt, p1) => parse_block fuel (acc ++ [stmt]) p1
    else
      if p.current.type ≠ TOKEN_RBRACE then ([], set_error p)
      else (acc, parser_advance p)
  termination_by structural fuel => fuel

/-- `parse_statement`: dispatch on the current token kind. -/
def parse_statement : Nat → ParserState σ → Option ASTNode × ParserState σ
  | 0, p => (none, p)
  | fuel + 1, p =>
    if p.current.type = TOKEN_IMPORT then parse_import_statement p
    else if p.current.type = TOKEN_LET then parse_let_statement fuel p
    else if p.current.type = TOKEN_FUNC then parse_function_statement fuel p
    else if p.current.type = TOKEN_MATCH then parse_match_statement fuel p
    else parse_expression_statement fuel p
  termination_by structural fuel => fuel

/-- `parse_expression_statement`: wraps a bare expression — note that
the wrapper node is built and returned even when the expression parse
failed and yielded no subtree. -/
def parse_expression_statement : Nat → ParserState σ → Option ASTNode × ParserState σ
  | 0, p => (none, p)
  | fuel + 1, p =>
    match parse_expression fuel 0 p with
    | (expr, p1) => (some (AST_EXPRESSION_STATEMENT expr), p1)
  termination_by structural fuel => fuel

/-- `parse_let_statement`: `let [!] name = expr`. -/
def parse_let_statement : Nat → ParserState σ → Option ASTNode × ParserState σ
  | 0, p => (none, p)
  | fuel + 1, p =>
    let p1 := parser_advance p
    let is_bang := p1.current.type = TOKEN_BANG
    let p2 := if is_bang then parser_advance p1 else p1
    let name := p2.current
    if name.type ≠ TOKEN_IDENTIFIER then (none, set_error p2)
    else
      let p3 := parser_advance p2
      if p3.current.type ≠ TOKEN_EQUAL then (none, set_error p3)
      else
        match parse_expression fuel 0 (parser_advance p3) with
        | (none, p4) => (none, p4)
        | (some initializer, p4) =>
          if is_bang then (some (AST_LET_BANG_STATEMENT name initializer), p4)
          else (some (AST_LET_STATEMENT name initializer), p4)
  termination_by structural fuel => fuel

/-- `parse_function_statement`: `func name(params) { body }`. -/
def parse_function_statement : Nat → ParserState σ → Option ASTNode × ParserState σ
  | 0, p => (none, p)
  | fuel + 1, p =>
    let p1 := parser_advance p
    if p1.current.type ≠ TOKEN_IDENTIFIER then (none, set_error p1)
    else
      let name := p1.current
      let p2 := parser_advance p1
      if p2.current.type ≠ TOKEN_LPAREN then (none, set_error p2)
      else
        match parse_parameter_list fuel [] (parser_advance p2) with
        | (params, p3) =>
          if p3.had_error then (none, p3)
          else if p3.current.type ≠ TOKEN_LBRACE then (none, set_error p3)
          else
            match parse_block fuel [] (parser_advance p3) with
            | (body, p4) =>
              if p4.had_error then (none, p4)
              else (some (AST_FUNCTION_STATEMENT name params body), p4)
  termination_by structural fuel => fuel

/-- `parse_match_statement`: `match value { pattern -> expr, ... }`.
The scrutinee expression is stored without a null check. -/
def parse_match_statement : Nat → ParserState σ → Option ASTNode × ParserState σ
  | 0, p => (none, p)
  | fuel + 1, p =>
    match parse_expression fuel 0 (parser_advance p) with
    | (value, p1) =>
      if p1.current.type ≠ TOKEN_LBRACE then (none, set_error p1)
      else
        match parse_match_arms fuel [] (parser_advance p1) with
        | (none, p2) => (none, p2)
        | (some arms, p2) =>
          if p2.current.type ≠ TOKEN_RBRACE then (none, set_error p2)
          else (some (AST_MATCH_STATEMENT value arms), parser_advance p2)
  termination_by structural fuel => fuel

/-- The arm loop of `parse_match_statement`: each arm is
`pattern -> expr` with an optional trailing comma; a missing `->`
aborts the whole match statement. -/
def parse_match_arms : Nat → List (Option ASTNode × Option ASTNode) → ParserState σ →
    Option (List (Option ASTNode × Option ASTNode)) × ParserState σ
  | 0, acc, p => (some acc, p)
  | fuel + 1, acc, p =>
    if p.current.type ≠ TOKEN_RBRACE ∧ p.current.type ≠ TOKEN_EOF then
      match parse_expression fuel 0 p with
      | (pattern, p1) =>
        if p1.current.type ≠ TOKEN_ARROW then (none, set_error p1)
        else
          match parse_expression fuel 0 (parser_advance p1) with
          | (expr, p2) =>
            let p3 := if p2.current.type = TOKEN_COMMA then parser_advance p2 else p2
            parse_match_arms fuel (acc ++ [(pattern, expr)]) p3
    else (some acc, p)
  termination_by structural fuel => fuel

end

/-- `parser_init`: prime the one-token window with the first token (the
`previous` field starts out as a copy of it) and clear both flags.  The
`init_parse_rules` call is represented by `get_rule` being a fixed
table. -/
def parser_init (st : σ) : ParserState σ :=
  let (tok, st') := TokenSource.next st
  { stream := st', current := tok, previous := tok,
    had_error := false, panic_mode := false }

/-- The top-level driving loop of `parse()`: keep parsing statements
while the current token is not end-of-input and no error has been
recorded; a null statement breaks the loop, everything collected so far
is returned. -/
def parse_loop : Nat → ParserState σ → List ASTNode × ParserState σ
  | 0, p => ([], p)
  | fuel + 1, p =>
    if p.current.type ≠ TOKEN_EOF ∧ p.had_error = false then
      match parse_statement fuel p with
      | (none, p1) => ([], p1)
      | (some node, p1) =>
        match parse_loop fuel p1 with
        | (rest, p2) => (node :: rest, p2)
    else ([], p)

/-- `parse(parser)`: run the driving loop; the returned list is the
`ASTProgram`'s node sequence (`count` is its length) and the failure
status is the final state's `had_error` flag. -/
def parse (fuel : Nat) (p : ParserState σ) : List ASTNode × ParserState σ :=
  parse_loop fuel p

/-- End-to-end front end on a source buffer: `lexer_init`,
`parser_init`, `parse`. -/
def run_front_end (fuel : Nat) (source : List Char) : List ASTNode × ParserState Lexer :=
  parse fuel (parser_init (lexer_init source))

/-!
## Claim theorems: concrete parses
-/

/-- C1.  The Pratt expression engine respects the precedence table
(`* /` at 20 bind tighter than `+ -` at 10) and is left-associative:
`2 + 3 * 4` parses as `2 + (3 * 4)`, `2 * 3 + 4` as `(2 * 3) + 4`, and
`1 - 2 - 3` as `(1 - 2) - 3`; all three parses succeed. -/
theorem claim_C1_precedence_and_associativity :
    ((run_front_end 100 "2 + 3 * 4".toList).1 =
      [AST_EXPRESSION_STATEMENT (some (AST_BINARY
        (some (AST_LITERAL ⟨TOKEN_NUMBER, ['2'], 1⟩))
        ⟨TOKEN_PLUS, ['+'], 1⟩
        (some (AST_BINARY (some (AST_LITERAL ⟨TOKEN_NUMBER, ['3'], 1⟩))
          ⟨TOKEN_STAR, ['*'], 1⟩
          (some (AST_LITERAL ⟨TOKEN_NUMBER, ['4'], 1⟩))))))] ∧
      (run_front_end 100 "2 + 3 * 4".toList).2.had_error = false) ∧
    ((run_front_end 100 "2 * 3 + 4".toList).1 =
      [AST_EXPRESSION_STATEMENT (some (AST_BINARY
        (some (AST_BINARY (some (AST_LITERAL ⟨TOKEN_NUMBER, ['2'], 1⟩))
          ⟨TOKEN_STAR, ['*'], 1⟩
          (some (AST_LITERAL ⟨TOKEN_NUMBER, ['3'], 1⟩))))
        ⟨TOKEN_PLUS, ['+'], 1⟩
        (some (AST_LITERAL ⟨TOKEN_NUMBER, ['4'], 1⟩))))] ∧
      (run_front_end 100 "2 * 3 + 4".toList).2.had_error = false) ∧
    ((run_front_end 100 "1 - 2 - 3".toList).1 =
      [AST_EXPRESSION_STATEMENT (some (AST_BINARY
        (some (AST_BINARY (some (AST_LITERAL ⟨TOKEN_NUMBER, ['1'], 1⟩))
          ⟨TOKEN_MINUS, ['-'], 1⟩
          (some (AST_LITERAL ⟨TOKEN_NUMBER, ['2'], 1⟩))))
        ⟨TOKEN_MINUS, ['-'], 1⟩
        (some (AST_LITERAL ⟨TOKEN_NUMBER, ['3'], 1⟩))))] ∧
      (run_front_end 100 "1 - 2 - 3".toList).2.had_error = false) :=
  ⟨⟨rfl, rfl⟩, ⟨rfl, rfl⟩, ⟨rfl, rfl⟩⟩

/-- Modelled from the spec: the token stream of the source `a |> b |> c`.
The lexer revision producing `TOKEN_PIPELINE` for `|>` is not in the
source tree (the present `lexer.c` lexes `|` alone as `TOKEN_PIPE`);
the spec fixes `|>` as the pipeline operator with binding power 5, so
the chain is modelled directly at the token level. -/
def pipeline_chain_tokens : List Token :=
  [⟨TOKEN_IDENTIFIER, ['a'], 1⟩, ⟨TOKEN_PIPELINE, ['|', '>'], 1⟩,
   ⟨TOKEN_IDENTIFIER, ['b'], 1⟩, ⟨TOKEN_PIPELINE, ['|', '>'], 1⟩,
   ⟨TOKEN_IDENTIFIER, ['c'], 1⟩]

/-- C2.  Parsing the chain `a |> b |> c` yields a left-nested pipeline:
the outer `AST_PIPELINE`'s left operand is the pipeline `a |> b` and
its right operand is `c`. -/
theorem claim_C2_pipeline_left_nested :
    (parse 100 (parser_init pipeline_chain_tokens)).1 =
      [AST_EXPRESSION_STATEMENT (some (AST_PIPELINE
        (some (AST_PIPELINE
          (some (AST_VARIABLE ⟨TOKEN_IDENTIFIER, ['a'], 1⟩))
          (some (AST_VARIABLE ⟨TOKEN_IDENTIFIER, ['b'], 1⟩))))
        (some (AST_VARIABLE ⟨TOKEN_IDENTIFIER, ['c'], 1⟩))))] ∧
    (parse 100 (parser_init pipeline_chain_tokens)).2.had_error = false :=
  ⟨rfl, rfl⟩

/-- C3, counterexample.  Parsing `let a = 1` followed by a syntax error
(`)`) on line 2 does not return only the complete statement parsed
before the error: the returned program has a second node — an
expression-statement wrapper whose expression is absent — produced by
`parse_expression_statement` for the very statement that failed. -/
theorem claim_C3_counterexample :
    (run_front_end 100 "let a = 1\n)".toList).1 =
      [AST_LET_STATEMENT ⟨TOKEN_IDENTIFIER, ['a'], 1⟩
        (AST_LITERAL ⟨TOKEN_NUMBER, ['1'], 1⟩),
       AST_EXPRESSION_STATEMENT none] ∧
    (run_front_end 100 "let a = 1\n)".toList).1.length = 2 ∧
    (run_front_end 100 "let a = 1\n)".toList).2.had_error = true :=
  ⟨rfl, rfl, rfl⟩

/-- C3, amended.  Once the error flag is set the top-level loop requests
no further statements (for any parser state with the flag set, `parse`
returns no nodes and leaves the state untouched), and the program
returned for a failing source holds the complete statements accumulated
before the error plus — when the failing statement was a bare
expression statement — one expression-statement wrapper with an absent
expression, together with the failure flag. -/
theorem claim_C3_amended_first_error_stops_loop :
    (∀ (σ : Type) [TokenSource σ] (fuel : Nat) (stream : σ) (cur prev : Token)
        (panic : Bool),
      parse fuel (⟨stream, cur, prev, true, panic⟩ : ParserState σ) =
        ([], ⟨stream, cur, prev, true, panic⟩)) ∧
    ((run_front_end 100 "let a = 1\n)".toList).1 =
      [AST_LET_STATEMENT ⟨TOKEN_IDENTIFIER, ['a'], 1⟩
        (AST_LITERAL ⟨TOKEN_NUMBER, ['1'], 1⟩),
       AST_EXPRESSION_STATEMENT none] ∧
     (run_front_end 100 "let a = 1\n)".toList).2.had_error = true) := by
  constructor
  · intro σ inst fuel stream cur prev panic
    cases fuel <;> simp [parse, parse_loop]
  · exact ⟨rfl, rfl⟩

/-- C5, counterexample.  In `match x { 1 -> "one", _ -> "other" }` the
second arm's pattern is not a distinguished "match-anything"
token/expression: the lexer sends `_` down the identifier path (the
`TOKEN_UNDERSCORE` case of its switch is unreachable), so the pattern
is an ordinary `AST_VARIABLE` carrying a `TOKEN_IDENTIFIER` token —
exactly the shape produced for the ordinary variable pattern `y` — and
its token kind differs from the distinguished `TOKEN_UNDERSCORE`. -/
theorem claim_C5_counterexample :
    (lexer_next (lexer_init "_".toList)).1.type = TOKEN_IDENTIFIER ∧
    ((run_front_end 100 "match x \x7b 1 -> \"one\", _ -> \"other\" \x7d".toList).1 =
      [AST_MATCH_STATEMENT (some (AST_VARIABLE ⟨TOKEN_IDENTIFIER, ['x'], 1⟩))
        [(some (AST_LITERAL ⟨TOKEN_NUMBER, ['1'], 1⟩),
          some (AST_LITERAL ⟨TOKEN_STRING, "\"one\"".toList, 1⟩)),
         (some (AST_VARIABLE ⟨TOKEN_IDENTIFIER, ['_'], 1⟩),
          some (AST_LITERAL ⟨TOKEN_STRING, "\"other\"".toList, 1⟩))]]) ∧
    ((run_front_end 100 "match x \x7b 1 -> \"one\", y -> \"other\" \x7d".toList).1 =
      [AST_MATCH_STATEMENT (some (AST_VARIABLE ⟨TOKEN_IDENTIFIER, ['x'], 1⟩))
        [(some (AST_LITERAL ⟨TOKEN_NUMBER, ['1'], 1⟩),
          some (AST_LITERAL ⟨TOKEN_STRING, "\"one\"".toList, 1⟩)),
         (some (AST_VARIABLE ⟨TOKEN_IDENTIFIER, ['y'], 1⟩),
          some (AST_LITERAL ⟨TOKEN_STRING, "\"other\"".toList, 1⟩))]]) ∧
    TOKEN_IDENTIFIER ≠ TOKEN_UNDERSCORE :=
  ⟨rfl, rfl, rfl, by decide⟩

/-- C5, amended.  `match x { 1 -> "one", _ -> "other" }` parses to one
match-statement node with its two arms in source order (the literal-1
arm first); the second arm's pattern is an ordinary variable-reference
expression whose token is the identifier `_` (not a distinguished
wildcard kind — the `TOKEN_UNDERSCORE` lexer case is unreachable), and
the parse succeeds. -/
theorem claim_C5_amended_match_arms_in_order :
    (run_front_end 100 "match x \x7b 1 -> \"one\", _ -> \"other\" \x7d".toList).1 =
      [AST_MATCH_STATEMENT (some (AST_VARIABLE ⟨TOKEN_IDENTIFIER, ['x'], 1⟩))
        [(some (AST_LITERAL ⟨TOKEN_NUMBER, ['1'], 1⟩),
          some (AST_LITERAL ⟨TOKEN_STRING, "\"one\"".toList, 1⟩)),
         (some (AST_VARIABLE ⟨TOKEN_IDENTIFIER, ['_'], 1⟩),
          some (AST_LITERAL ⟨TOKEN_STRING, "\"other\"".toList, 1⟩))]] ∧
    (run_front_end 100 "match x \x7b 1 -> \"one\", _ -> \"other\" \x7d".toList).2.had_error
      = false :=
  ⟨rfl, rfl⟩

/-- C9.  Parsing a source whose first token is already end-of-input
(empty, or whitespace and comments only) yields a program with zero
statements and an unset error flag: empty input is a successful
parse. -/
theorem claim_C9_empty_input_parses_successfully
    (source : List Char) (fuel : Nat)
    (h : (lexer_next (lexer_init source)).1.type = TOKEN_EOF) :
    (run_front_end fuel source).1 = [] ∧
    (run_front_end fuel source).2.had_error = false := by
  unfold run_front_end parse parser_init
  rcases hn : TokenSource.next (σ := Lexer) (lexer_init source) with ⟨tok, st⟩
  have htok : tok.type = TOKEN_EOF := by
    have : TokenSource.next (σ := Lexer) (lexer_init source) = lexer_next (lexer_init source) := rfl
    rw [this] at hn
    rw [hn] at h
    exact h
  cases fuel with
  | zero => exact ⟨rfl, rfl⟩
  | succ n => simp [parse_loop, htok]

/-- Witness for C9 at two concrete inputs: the empty buffer and a
buffer holding only whitespace and comments. -/
theorem claim_C9_witness :
    ((run_front_end 5 "".toList).1 = [] ∧
     (run_front_end 5 "".toList).2.had_error = false) ∧
    ((run_front_end 5 "  // line\n /* block */ ".toList).1 = [] ∧
     (run_front_end 5 "  // line\n /* block */ ".toList).2.had_error = false) :=
  ⟨claim_C9_empty_input_parses_successfully "".toList 5 rfl,
   claim_C9_empty_input_parses_successfully "  // line\n /* block */ ".toList 5 rfl⟩

/-!
## Claim C4: end-of-input is an idempotent fixpoint of the scanner
-/


/-- An if-then-else avoids a value that both branches avoid. -/
theorem ite_ne_of_ne {α : Type} (c : Prop) [Decidable c] (a b x : α)
    (ha : a ≠ x) (hb : b ≠ x) : (if c then a else b) ≠ x := by
  by_cases h : c
  · simpa [h] using ha
  · simpa [h] using hb

/-- The keyword table never classifies a lexeme as end-of-input. -/
theorem keyword_type_ne_eof (lex : List Char) : keyword_type lex ≠ TOKEN_EOF := by
  unfold keyword_type
  repeat' apply ite_ne_of_ne
  all_goals decide

/-- `string()` never returns an end-of-input token. -/
theorem string_ne_eof (rest : List Char) (line : Nat) :
    (string rest line).1.type ≠ TOKEN_EOF := by
  unfold string
  rcases scan_string rest line with ⟨body, rem, line2⟩
  rcases body with _ | b <;> exact fun h => TokenType.noConfusion h

/-- The shape every end-of-input result of the scanner has: the token
is the end-of-input token at the final line and the remainder is
empty. -/
abbrev eof_result_shape (r : Token × Lexer) : Prop :=
  r.1.type = TOKEN_EOF → ∃ l, r = (⟨TOKEN_EOF, [], l⟩, ⟨[], l⟩)

/-- An if-then-else whose branches both have the end-of-input shape has
it as well. -/
theorem eof_shape_ite (c : Prop) [Decidable c] (r s : Token × Lexer)
    (hr : eof_result_shape r) (hs : eof_result_shape s) :
    eof_result_shape (if c then r else s) := by
  by_cases h : c
  · simpa [h] using hr
  · simpa [h] using hs

/-- Whenever `lexer_next_aux` reports end of input, the token is exactly
the end-of-input token at the final line and the scanner is left with an
empty remainder. -/
theorem lexer_next_aux_eof_shape :
    ∀ (fuel : Nat) (st : Lexer), eof_result_shape (lexer_next_aux fuel st) := by
  intro fuel
  induction fuel with
  | zero => exact fun st _ => ⟨st.line, rfl⟩
  | succ n ih =>
    intro st
    simp only [lexer_next_aux]
    rcases hsw : skip_whitespace st.current st.line with ⟨cur, line⟩
    rcases cur with _ | ⟨c, rest⟩
    · exact fun _ => ⟨line, rfl⟩
    · simp only
      repeat'
        first
        | exact fun h => absurd h (keyword_type_ne_eof _)
        | exact fun h => absurd h (string_ne_eof _ _)
        | exact fun h => TokenType.noConfusion h
        | exact ih _
        | exact fun _ => ⟨line, rfl⟩
        | apply eof_shape_ite

/-- With an empty remainder the scanner returns the end-of-input token
and leaves its state unchanged. -/
theorem lexer_next_empty (l : Nat) :
    lexer_next ⟨[], l⟩ = (⟨TOKEN_EOF, [], l⟩, ⟨[], l⟩) := rfl

/-- The `(k+1)`-st call of `lexer_next` starting from `st`: `lex_iter 0`
is the first call, and each successor first consumes one token and
iterates on the resulting state. -/
def lex_iter : Nat → Lexer → Token × Lexer
  | 0, st => lexer_next st
  | k + 1, st => lex_iter k (lexer_next st).2

theorem lex_iter_empty (k : Nat) (l : Nat) :
    lex_iter k ⟨[], l⟩ = (⟨TOKEN_EOF, [], l⟩, ⟨[], l⟩) := by
  induction k with
  | zero => exact lexer_next_empty l
  | succ n ih => simp only [lex_iter, lexer_next_empty]; exact ih

/-- C4.  Once `lexer_next` has returned an end-of-input token, every
subsequent call returns the very same end-of-input token and state: the
cursor rests on the terminating sentinel (empty remainder), never
advances past it, and the result is deterministic for every further
call. -/
theorem claim_C4_eof_is_idempotent (st : Lexer) (k : Nat)
    (h : (lexer_next st).1.type = TOKEN_EOF) :
    lex_iter k st = lexer_next st ∧
    (lex_iter k st).1.type = TOKEN_EOF ∧
    (lexer_next st).2.current = [] := by
  obtain ⟨l, hl⟩ := lexer_next_aux_eof_shape (st.current.length + 1) st h
  have hl' : lexer_next st = (⟨TOKEN_EOF, [], l⟩, ⟨[], l⟩) := hl
  cases k with
  | zero => exact ⟨rfl, h, by rw [hl']⟩
  | succ n =>
    have : lex_iter (n + 1) st = lex_iter n (lexer_next st).2 := rfl
    rw [this, hl', lex_iter_empty]
    exact ⟨rfl, rfl, rfl⟩

/-- Witness for C4: on the buffer `"  "` (whitespace only) the first
token is end-of-input, and the fourth read still returns the same
end-of-input result. -/
theorem claim_C4_witness :
    lex_iter 3 (lexer_init "  ".toList) = lexer_next (lexer_init "  ".toList) ∧
    (lex_iter 3 (lexer_init "  ".toList)).1.type = TOKEN_EOF ∧
    (lexer_next (lexer_init "  ".toList)).2.current = [] :=
  claim_C4_eof_is_idempotent (lexer_init "  ".toList) 3 rfl

/-!
## Claim C6: unterminated strings
-/

/-- When the remainder holds no closing quote, the string scan consumes
everything, counts the embedded newlines, and reports failure. -/
theorem scan_string_no_quote (s : List Char) (line : Nat) (h : '"' ∉ s) :
    scan_string s line = (none, [], line + s.count '\n') := by
  induction s generalizing line with
  | nil => simp [scan_string]
  | cons c rest ih =>
    have hc : c ≠ '"' := fun e => h (e ▸ List.mem_cons_self c rest)
    have hrest : '"' ∉ rest := fun hm => h (List.mem_cons_of_mem c hm)
    by_cases hn : c = '\n'
    · subst hn
      simp [scan_string, ih _ hrest, List.count_cons]
      omega
    · simp [scan_string, hc, ih _ hrest, List.count_cons, hn]

/-- Nothing in front of a quote is skipped as whitespace. -/
theorem skip_whitespace_quote (s : List Char) (line : Nat) :
    skip_whitespace ('"' :: s) line = ('"' :: s, line) := by
  simp [skip_whitespace]

/-- C6.  Lexing a string literal that reaches end of input before the
closing quote yields an error-kind token carrying the fixed message
"Unterminated string." at the line reached after the embedded newlines
(the scan is total, so it neither crashes nor loops), and the parser
turns that error token into a reported parse failure: the front end run
on `"abc` sets the error flag and produces only the expression-statement
wrapper of an absent expression. -/
theorem claim_C6_unterminated_string (s : List Char) (line : Nat) (h : '"' ∉ s) :
    (lexer_next ⟨'"' :: s, line⟩ =
      (⟨TOKEN_ERROR, "Unterminated string.".toList, line + s.count '\n'⟩,
       ⟨[], line + s.count '\n'⟩)) ∧
    (run_front_end 100 "\"abc".toList).2.had_error = true ∧
    (run_front_end 100 "\"abc".toList).1 = [AST_EXPRESSION_STATEMENT none] := by
  refine ⟨?_, rfl, rfl⟩
  show lexer_next_aux (('"' :: s).length + 1) ⟨'"' :: s, line⟩ = _
  simp only [lexer_next_aux, List.length_cons, skip_whitespace_quote]
  simp [string, scan_string_no_quote s line h, isalpha, isdigit]

/-- Witness for C6 at the unterminated literal `"abc` (no newline) and
at `"a` followed by a newline (line counter advanced). -/
theorem claim_C6_witness :
    ((lexer_next ⟨'"' :: "abc".toList, 1⟩ =
       (⟨TOKEN_ERROR, "Unterminated string.".toList, 1 + "abc".toList.count '\n'⟩,
        ⟨[], 1 + "abc".toList.count '\n'⟩)) ∧
     (run_front_end 100 "\"abc".toList).2.had_error = true ∧
     (run_front_end 100 "\"abc".toList).1 = [AST_EXPRESSION_STATEMENT none]) ∧
    ((lexer_next ⟨'"' :: "a\nb".toList, 1⟩ =
       (⟨TOKEN_ERROR, "Unterminated string.".toList, 1 + "a\nb".toList.count '\n'⟩,
        ⟨[], 1 + "a\nb".toList.count '\n'⟩)) ∧
     (run_front_end 100 "\"abc".toList).2.had_error = true ∧
     (run_front_end 100 "\"abc".toList).1 = [AST_EXPRESSION_STATEMENT none]) :=
  ⟨claim_C6_unterminated_string "abc".toList 1 (by decide),
   claim_C6_unterminated_string "a\nb".toList 1 (by decide)⟩

/-!
## Claim C8: fractional part requires a digit after the dot
-/

theorem isdigit_toNat_bounds (d : Char) (hd : isdigit d = true) :
    48 ≤ d.toNat ∧ d.toNat ≤ 57 := by
  unfold isdigit at hd
  simp only [Bool.and_eq_true, decide_eq_true_eq] at hd
  exact hd

/-- A digit is not whitespace, not a control character, not a letter,
not an underscore and not a quote, so the scanner's dispatch sends it
straight to `number()`. -/
theorem skip_whitespace_digit (d : Char) (l : List Char) (line : Nat)
    (hd : isdigit d = true) :
    skip_whitespace (d :: l) line = (d :: l, line) := by
  obtain ⟨h1, h2⟩ := isdigit_toNat_bounds d hd
  have hsp : d ≠ ' ' := fun e => by rw [e] at h1; exact absurd h1 (by decide)
  have hcr : d ≠ '\r' := fun e => by rw [e] at h1; exact absurd h1 (by decide)
  have htb : d ≠ '\t' := fun e => by rw [e] at h1; exact absurd h1 (by decide)
  have hnl : d ≠ '\n' := fun e => by rw [e] at h1; exact absurd h1 (by decide)
  have hge : ¬ d.toNat < 32 := by omega
  simp [skip_whitespace, hsp, hcr, htb, hnl, hge]

theorem isalpha_of_digit_false (d : Char) (hd : isdigit d = true) :
    isalpha d = false := by
  obtain ⟨h1, h2⟩ := isdigit_toNat_bounds d hd
  unfold isalpha
  simp only [Bool.or_eq_false_iff, Bool.and_eq_false_iff, decide_eq_false_iff_not]
  omega

theorem digit_ne_underscore (d : Char) (hd : isdigit d = true) : (d = '_') = False := by
  obtain ⟨h1, h2⟩ := isdigit_toNat_bounds d hd
  simp only [eq_iff_iff, iff_false]
  exact fun e => by rw [e] at h2; exact absurd h2 (by decide)

theorem takeWhile_append_all {α : Type} (p : α → Bool) (ds l : List α)
    (h : ∀ c ∈ ds, p c = true) : (ds ++ l).takeWhile p = ds ++ l.takeWhile p := by
  induction ds with
  | nil => simp
  | cons a as ih =>
    have ha : p a = true := h a (List.mem_cons_self a as)
    simp [List.takeWhile_cons, ha,
      ih (fun c hc => h c (List.mem_cons_of_mem _ hc))]

theorem dropWhile_append_all {α : Type} (p : α → Bool) (ds l : List α)
    (h : ∀ c ∈ ds, p c = true) : (ds ++ l).dropWhile p = l.dropWhile p := by
  induction ds with
  | nil => simp
  | cons a as ih =>
    have ha : p a = true := h a (List.mem_cons_self a as)
    simp [List.dropWhile_cons, ha,
      ih (fun c hc => h c (List.mem_cons_of_mem _ hc))]

theorem isdigit_dot_false : isdigit '.' = false := rfl

/-- C8.  When lexing a number, the scanner consumes the `.` after the
integer digits as part of the number token if and only if the character
immediately after the dot is a digit: with a digit `e` after the dot
the token spans the integer digits, the dot and the following digit
run; otherwise the number token ends before the dot, the dot stays in
the remainder, and the next token lexed from that remainder is
`TOKEN_DOT`. -/
theorem claim_C8_dot_consumed_iff_digit_follows
    (d : Char) (ds tail : List Char) (line : Nat)
    (hd : isdigit d = true) (hds : ∀ c ∈ ds, isdigit c = true) :
    (∀ e r3, tail = e :: r3 → isdigit e = true →
      lexer_next ⟨d :: ds ++ '.' :: tail, line⟩ =
        (⟨TOKEN_NUMBER, d :: ds ++ '.' :: e :: r3.takeWhile isdigit, line⟩,
         ⟨r3.dropWhile isdigit, line⟩)) ∧
    (isdigit (tail.headD '\x00') = false →
      lexer_next ⟨d :: ds ++ '.' :: tail, line⟩ =
        (⟨TOKEN_NUMBER, d :: ds, line⟩, ⟨'.' :: tail, line⟩)) ∧
    (lexer_next ⟨'.' :: tail, line⟩).1.type = TOKEN_DOT := by
  have halpha : isalpha d = false := isalpha_of_digit_false d hd
  have hund : (d = '_') = False := digit_ne_underscore d hd
  have htake : ∀ t : List Char, (ds ++ '.' :: t).takeWhile isdigit = ds := by
    intro t
    rw [takeWhile_append_all _ _ _ hds]
    simp [List.takeWhile_cons, isdigit_dot_false]
  have hdrop : ∀ t : List Char, (ds ++ '.' :: t).dropWhile isdigit = '.' :: t := by
    intro t
    rw [dropWhile_append_all _ _ _ hds]
    simp [List.dropWhile_cons, isdigit_dot_false]
  refine ⟨?_, ?_, ?_⟩
  · intro e r3 htail he
    subst htail
    have hsw := skip_whitespace_digit d (ds ++ '.' :: e :: r3) line hd
    simp only [List.cons_append, lexer_next]
    simp only [lexer_next_aux]
    rw [hsw]
    simp [halpha, hund, hd, htake, hdrop, he]
  · intro hfalse
    have hsw := skip_whitespace_digit d (ds ++ '.' :: tail) line hd
    simp only [List.cons_append, lexer_next]
    simp only [lexer_next_aux]
    rw [hsw]
    simp [halpha, hund, hd, htake, hdrop, hfalse]
    cases tail <;> simp_all
  · have hdotdigit : isdigit '.' = false := rfl
    have hdotalpha : isalpha '.' = false := rfl
    simp only [lexer_next]
    simp only [lexer_next_aux]
    have hsw : skip_whitespace ('.' :: tail) line = ('.' :: tail, line) := by
      simp [skip_whitespace]
    rw [hsw]
    simp [hdotdigit, hdotalpha]

/-- Witness for C8: lexing `34.5x` consumes the dot into the number
token `34.5`; lexing `34.x` stops the number token at `34`, leaves
`.x` in the remainder, and the next token is the dot. -/
theorem claim_C8_witness :
    (lexer_next ⟨'3' :: ['4'] ++ '.' :: ('5' :: ['x']), 1⟩ =
      (⟨TOKEN_NUMBER, '3' :: ['4'] ++ '.' :: '5' :: (['x'].takeWhile isdigit), 1⟩,
       ⟨['x'].dropWhile isdigit, 1⟩)) ∧
    (lexer_next ⟨'3' :: ['4'] ++ '.' :: ['x'], 1⟩ =
      (⟨TOKEN_NUMBER, '3' :: ['4'], 1⟩, ⟨'.' :: ['x'], 1⟩)) ∧
    (lexer_next ⟨'.' :: ['x'], 1⟩).1.type = TOKEN_DOT := by
  refine ⟨?_, ?_, ?_⟩
  · exact (claim_C8_dot_consumed_iff_digit_follows '3' ['4'] ('5' :: ['x']) 1
      (by decide) (by decide)).1 '5' ['x'] rfl (by decide)
  · exact (claim_C8_dot_consumed_iff_digit_follows '3' ['4'] ['x'] 1
      (by decide) (by decide)).2.1 (by decide)
  · exact (claim_C8_dot_consumed_iff_digit_follows '3' ['4'] ['x'] 1
      (by decide) (by decide)).2.2

/-!
## Claim C7: the 255-argument bound of the call handler
-/

/-- One-step unfolding of the argument loop at successor fuel. -/
theorem parse_call_args_unfold {σ : Type} [TokenSource σ] (fuel : Nat)
    (acc : List ASTNode) (p : ParserState σ) :
    parse_call_args (fuel + 1) acc p =
      if 255 ≤ acc.length then (acc, set_error p)
      else
        match parse_expression fuel 0 p with
        | (none, p1) => (acc, p1)
        | (some arg, p1) =>
          if p1.current.type = TOKEN_COMMA then
            parse_call_args fuel (acc ++ [arg]) (parser_advance p1)
          else (acc ++ [arg], p1) := rfl

/-- Identifier token used in the call-argument claim. -/
def ident_token (nm : List Char) : Token := ⟨TOKEN_IDENTIFIER, nm, 1⟩

def comma_token : Token := ⟨TOKEN_COMMA, [','], 1⟩

def rparen_token : Token := ⟨TOKEN_RPAREN, [')'], 1⟩

/-- The comma-separated continuation of an argument list: one comma and
one identifier token per remaining argument name. -/
def arg_tail_tokens : List (List Char) → List Token
  | [] => []
  | nm :: rest => comma_token :: ident_token nm :: arg_tail_tokens rest

/-- Token stream of the call `f(x1, ..., xn)` with identifier
arguments. -/
def call_tokens (names : List (List Char)) : List Token :=
  ident_token ['f'] :: ⟨TOKEN_LPAREN, ['('], 1⟩ ::
    (match names with
     | [] => []
     | x :: xs => ident_token x :: arg_tail_tokens xs) ++
    [rparen_token]

/-- The argument loop of `parse_call` collects every comma-separated
identifier argument, in order, whenever the total stays within the
255-argument bound, stopping with the closing parenthesis as the
current token and the error flag untouched. -/
theorem parse_call_args_collects :
    ∀ (xs : List (List Char)) (fuel : Nat) (acc : List ASTNode)
      (after : List Token) (x : List Char) (prev : Token) (err panic : Bool),
      acc.length + xs.length + 1 ≤ 255 →
      xs.length + 3 ≤ fuel →
      ∃ prevF,
        parse_call_args fuel acc
          (⟨arg_tail_tokens xs ++ rparen_token :: after, ident_token x, prev, err, panic⟩
            : ParserState (List Token)) =
        (acc ++ (x :: xs).map (fun nm => AST_VARIABLE (ident_token nm)),
         ⟨after, rparen_token, prevF, err, panic⟩) := by
  intro xs
  induction xs with
  | nil =>
    intro fuel acc after x prev err panic hcount hfuel
    obtain ⟨f, rfl⟩ : ∃ f, fuel = f + 3 := ⟨fuel - 3, by omega⟩
    refine ⟨ident_token x, ?_⟩
    rw [show f + 3 = (f + 2) + 1 from rfl, parse_call_args_unfold]
    rw [if_neg (by omega : ¬ 255 ≤ acc.length)]
    have hexp : parse_expression (f + 2) 0
        (⟨arg_tail_tokens [] ++ rparen_token :: after, ident_token x, prev, err, panic⟩
          : ParserState (List Token)) =
        (some (AST_VARIABLE (ident_token x)),
         ⟨after, rparen_token, ident_token x, err, panic⟩) := rfl
    rw [hexp]
    rfl
  | cons y xs' ih =>
    intro fuel acc after x prev err panic hcount hfuel
    obtain ⟨g, rfl⟩ : ∃ g, fuel = g + 3 := ⟨fuel - 3, by omega⟩
    rw [show g + 3 = (g + 2) + 1 from rfl, parse_call_args_unfold]
    rw [if_neg (by omega : ¬ 255 ≤ acc.length)]
    have hexp : parse_expression (g + 2) 0
        (⟨arg_tail_tokens (y :: xs') ++ rparen_token :: after, ident_token x, prev, err,
          panic⟩ : ParserState (List Token)) =
        (some (AST_VARIABLE (ident_token x)),
         ⟨ident_token y :: arg_tail_tokens xs' ++ rparen_token :: after, comma_token,
          ident_token x, err, panic⟩) := rfl
    rw [hexp]
    have hc : acc.length + 1 + xs'.length + 1 ≤ 255 := by
      simp only [List.length_cons] at hcount; omega
    have hf : xs'.length + 3 ≤ g + 2 := by
      simp only [List.length_cons] at hfuel; omega
    obtain ⟨prevF, heq⟩ := ih (g + 2) (acc ++ [AST_VARIABLE (ident_token x)]) after y
      comma_token err panic (by simpa using hc) hf
    refine ⟨prevF, ?_⟩
    show parse_call_args (g + 2) (acc ++ [AST_VARIABLE (ident_token x)])
        (⟨arg_tail_tokens xs' ++ rparen_token :: after, ident_token y, comma_token, err,
          panic⟩ : ParserState (List Token)) = _
    rw [heq]
    simp

/-- Once 255 arguments are collected the argument loop refuses to parse
another one: starting `n` short of the bound with more than `n`
arguments left, it collects exactly `n` more, sets the error flag, and
stops on the first uncollected argument. -/
theorem parse_call_args_overflow :
    ∀ (n : Nat) (xs : List (List Char)) (fuel : Nat) (acc : List ASTNode)
      (after : List Token) (x : List Char) (prev : Token) (err panic : Bool),
      acc.length = 255 - n →
      n ≤ 255 →
      n ≤ xs.length →
      n + 3 ≤ fuel →
      ∃ prevF,
        parse_call_args fuel acc
          (⟨arg_tail_tokens xs ++ rparen_token :: after, ident_token x, prev, err, panic⟩
            : ParserState (List Token)) =
        (acc ++ ((x :: xs).take n).map (fun nm => AST_VARIABLE (ident_token nm)),
         ⟨arg_tail_tokens ((x :: xs).drop (n + 1)) ++ rparen_token :: after,
          ident_token (((x :: xs).drop n).headD []), prevF, true, panic⟩) := by
  intro n
  induction n with
  | zero =>
    intro xs fuel acc after x prev err panic hlen _ _ hfuel
    obtain ⟨f, rfl⟩ : ∃ f, fuel = f + 3 := ⟨fuel - 3, by omega⟩
    refine ⟨prev, ?_⟩
    rw [show f + 3 = (f + 2) + 1 from rfl, parse_call_args_unfold]
    rw [if_pos (by omega : 255 ≤ acc.length)]
    simp [set_error]
  | succ n ih =>
    intro xs fuel acc after x prev err panic hlen hle hxs hfuel
    obtain ⟨g, rfl⟩ : ∃ g, fuel = g + 3 := ⟨fuel - 3, by omega⟩
    match xs, hxs with
    | y :: xs', hxs =>
      rw [show g + 3 = (g + 2) + 1 from rfl, parse_call_args_unfold]
      rw [if_neg (by omega : ¬ 255 ≤ acc.length)]
      have hexp : parse_expression (g + 2) 0
          (⟨arg_tail_tokens (y :: xs') ++ rparen_token :: after, ident_token x, prev, err,
            panic⟩ : ParserState (List Token)) =
          (some (AST_VARIABLE (ident_token x)),
           ⟨ident_token y :: arg_tail_tokens xs' ++ rparen_token :: after, comma_token,
            ident_token x, err, panic⟩) := rfl
      rw [hexp]
      obtain ⟨prevF, heq⟩ := ih xs' (g + 2) (acc ++ [AST_VARIABLE (ident_token x)]) after y
        comma_token err panic (by simp [hlen]; omega) (by omega)
        (by simp at hxs; omega) (by omega)
      refine ⟨prevF, ?_⟩
      show parse_call_args (g + 2) (acc ++ [AST_VARIABLE (ident_token x)])
          (⟨arg_tail_tokens xs' ++ rparen_token :: after, ident_token y, comma_token, err,
            panic⟩ : ParserState (List Token)) = _
      rw [heq]
      simp

/-- One-step unfolding of `parse_call` at successor fuel. -/
theorem parse_call_unfold {σ : Type} [TokenSource σ] (fuel : Nat)
    (p : ParserState σ) (callee : Option ASTNode) (token : Token) :
    parse_call (fuel + 1) p callee token =
      match
        (if p.current.type = TOKEN_RPAREN then ([], p) else parse_call_args fuel [] p : _)
      with
      | (args, p1) =>
        (some (AST_CALL callee args), parser_consume p1 TOKEN_RPAREN) := rfl

/-- The parser state at which the `parse_call` infix handler is invoked
for the argument part `x1, ..., xn)` of a call: the first argument
token (or the closing parenthesis, for an empty list) is current and
the `(` was just consumed. -/
def call_entry_state (names : List (List Char)) (after : List Token) :
    ParserState (List Token) :=
  match names with
  | [] => ⟨after, rparen_token, ⟨TOKEN_LPAREN, ['('], 1⟩, false, false⟩
  | x :: xs =>
    ⟨arg_tail_tokens xs ++ rparen_token :: after, ident_token x,
     ⟨TOKEN_LPAREN, ['('], 1⟩, false, false⟩

/-- C7.  The call infix handler collects comma-separated arguments in
order and enforces the 255-argument bound: invoked on a call with at
most 255 identifier arguments it builds an `AST_CALL` holding every
argument in source order with the error flag untouched; invoked on a
call with more than 255 arguments it sets the parser's error flag and
builds an `AST_CALL` holding exactly the first 255 arguments — the
attempt to parse an argument beyond the bound is refused rather than
collected.  The final conjunct checks the handler's integration into
the Pratt engine on the full token stream of `f(a, b)`. -/
theorem claim_C7_call_argument_bound :
    (∀ (names : List (List Char)) (callee : Option ASTNode), names.length ≤ 255 →
      (parse_call 600 (call_entry_state names []) callee
          (⟨TOKEN_LPAREN, ['('], 1⟩ : Token)).1 =
        some (AST_CALL callee (names.map (fun nm => AST_VARIABLE (ident_token nm)))) ∧
      (parse_call 600 (call_entry_state names []) callee
          (⟨TOKEN_LPAREN, ['('], 1⟩ : Token)).2.had_error = false) ∧
    (∀ (names : List (List Char)) (callee : Option ASTNode), 256 ≤ names.length →
      (parse_call 600 (call_entry_state names []) callee
          (⟨TOKEN_LPAREN, ['('], 1⟩ : Token)).1 =
        some (AST_CALL callee
          ((names.take 255).map (fun nm => AST_VARIABLE (ident_token nm)))) ∧
      (parse_call 600 (call_entry_state names []) callee
          (⟨TOKEN_LPAREN, ['('], 1⟩ : Token)).2.had_error = true) ∧
    ((parse_expression 600 0 (parser_init (call_tokens [['a'], ['b']]))).1 =
      some (AST_CALL (some (AST_VARIABLE (ident_token ['f'])))
        [AST_VARIABLE (ident_token ['a']), AST_VARIABLE (ident_token ['b'])]) ∧
     (parse_expression 600 0
        (parser_init (call_tokens [['a'], ['b']]))).2.had_error = false) := by
  refine ⟨?_, ?_, rfl, rfl⟩
  · intro names callee h
    cases names with
    | nil => exact ⟨rfl, rfl⟩
    | cons x xs =>
      obtain ⟨prevF, hloop⟩ := parse_call_args_collects xs 599 [] [] x
        (⟨TOKEN_LPAREN, ['('], 1⟩ : Token) false false
        (by simp only [List.length_cons, List.length_nil] at h ⊢; omega)
        (by simp only [List.length_cons] at h; omega)
      have hfull : parse_call 600 (call_entry_state (x :: xs) []) callee
          (⟨TOKEN_LPAREN, ['('], 1⟩ : Token) =
          (some (AST_CALL callee
            ((x :: xs).map (fun nm => AST_VARIABLE (ident_token nm)))),
           ⟨[], ⟨TOKEN_EOF, [], 1⟩, rparen_token, false, false⟩) := by
        rw [show (600 : Nat) = 599 + 1 from rfl, parse_call_unfold]
        simp only [call_entry_state]
        rw [if_neg (fun hh => TokenType.noConfusion hh :
          ¬ (ident_token x).type = TOKEN_RPAREN)]
        rw [hloop]
        rfl
      exact ⟨by rw [hfull], by rw [hfull]⟩
  · intro names callee h
    cases names with
    | nil => simp at h
    | cons x xs =>
      obtain ⟨prevF, hloop⟩ := parse_call_args_overflow 255 xs 599 [] [] x
        (⟨TOKEN_LPAREN, ['('], 1⟩ : Token) false false
        (by simp) (by omega)
        (by simp only [List.length_cons] at h; omega) (by omega)
      have hfull : parse_call 600 (call_entry_state (x :: xs) []) callee
          (⟨TOKEN_LPAREN, ['('], 1⟩ : Token) =
          (some (AST_CALL callee
            (((x :: xs).take 255).map (fun nm => AST_VARIABLE (ident_token nm)))),
           ⟨arg_tail_tokens ((x :: xs).drop 256) ++ rparen_token :: [],
            ident_token (((x :: xs).drop 255).headD []), prevF, true, false⟩) := by
        rw [show (600 : Nat) = 599 + 1 from rfl, parse_call_unfold]
        simp only [call_entry_state]
        rw [if_neg (fun hh => TokenType.noConfusion hh :
          ¬ (ident_token x).type = TOKEN_RPAREN)]
        rw [hloop]
        rfl
      exact ⟨by rw [hfull], by rw [hfull]⟩

/-- Witness for C7: a two-argument call `f(a, b)` collects both
arguments in order without error, and a 256-argument call collects
exactly the first 255 and sets the error flag. -/
theorem claim_C7_witness :
    ((parse_call 600 (call_entry_state [['a'], ['b']] [])
        (some (AST_VARIABLE (ident_token ['f'])))
        (⟨TOKEN_LPAREN, ['('], 1⟩ : Token)).1 =
      some (AST_CALL (some (AST_VARIABLE (ident_token ['f'])))
        ([['a'], ['b']].map (fun nm => AST_VARIABLE (ident_token nm)))) ∧
     (parse_call 600 (call_entry_state [['a'], ['b']] [])
        (some (AST_VARIABLE (ident_token ['f'])))
        (⟨TOKEN_LPAREN, ['('], 1⟩ : Token)).2.had_error = false) ∧
    ((parse_call 600 (call_entry_state (List.replicate 256 ['a']) [])
        (some (AST_VARIABLE (ident_token ['f'])))
        (⟨TOKEN_LPAREN, ['('], 1⟩ : Token)).1 =
      some (AST_CALL (some (AST_VARIABLE (ident_token ['f'])))
        (((List.replicate 256 ['a']).take 255).map
          (fun nm => AST_VARIABLE (ident_token nm)))) ∧
     (parse_call 600 (call_entry_state (List.replicate 256 ['a']) [])
        (some (AST_VARIABLE (ident_token ['f'])))
        (⟨TOKEN_LPAREN, ['('], 1⟩ : Token)).2.had_error = true) :=
  ⟨claim_C7_call_argument_bound.1 [['a'], ['b']]
      (some (AST_VARIABLE (ident_token ['f']))) (by simp),
   claim_C7_call_argument_bound.2.1 (List.replicate 256 ['a'])
      (some (AST_VARIABLE (ident_token ['f']))) (by rw [List.length_replicate])⟩

/-!
## Claim C10: recursive destruction frees exactly what a tree owns

The node model here is the one `free_node`'s translation unit compiles
against (`ast.h`): thirteen node kinds, with child pointers that may be
null (`Option`) and owned arrays of child pointers, parameter tokens
and match arms.  `free_node` is embedded as a trace of the heap
releases it performs, in order; the specification side (`owned_allocs`)
lists the allocations a tree owns — every child subtree depth-first in
field order, then the node's own arrays, then the node record itself —
derived from the data model's ownership discipline, and the claim is
that the two agree.
-/

namespace AstH

/-- The `ASTNode` record of `ast.h`. -/
inductive Node where
  | AST_LITERAL (token : Token)
  | AST_BINARY (left : Option Node) (op : Token) (right : Option Node)
  | AST_UNARY (op : Token) (right : Option Node)
  | AST_VARIABLE (name : Token)
  | AST_GROUPING (expression : Option Node)
  | AST_ASSIGNMENT (name : Token) (value : Option Node)
  | AST_CALL (callee : Option Node) (arguments : List (Option Node))
  | AST_ERROR
  | AST_LET_STATEMENT (name : Token) (initializer : Option Node)
  | AST_EXPRESSION_STATEMENT (expression : Option Node)
  | AST_FUNCTION_STATEMENT (name : Token) (params : List Token)
      (body : List (Option Node))
  | AST_LAMBDA_EXPRESSION (params : List Token) (body : List (Option Node))
  | AST_MATCH_STATEMENT (value : Option Node)
      (arms : List (Option Node × Option Node))

/-- One heap release performed during destruction: a node record, an
array of child-node pointers, an array of parameter tokens, or an array
of match arms. -/
inductive Alloc where
  | node (n : Node)
  | node_array (a : List (Option Node))
  | token_array (ts : List Token)
  | arm_array (arms : List (Option Node × Option Node))

mutual

/-- `free_node` of the AST translation unit, as the ordered trace of
the releases it performs: a null pointer is a no-op; otherwise the
switch releases the owned children and arrays of the node's kind and
falls through to `free(node)` itself. -/
def free_node : Option Node → List Alloc
  | none => []
  | some n =>
    (match n with
     | .AST_LITERAL _ => []
     | .AST_BINARY l _ r => free_node l ++ free_node r
     | .AST_UNARY _ r => free_node r
     | .AST_VARIABLE _ => []
     | .AST_GROUPING e => free_node e
     | .AST_ASSIGNMENT _ v => free_node v
     | .AST_CALL c args => free_node c ++ free_arg_list args ++ [Alloc.node_array args]
     | .AST_ERROR => []
     | .AST_LET_STATEMENT _ i => free_node i
     | .AST_EXPRESSION_STATEMENT e => free_node e
     | .AST_FUNCTION_STATEMENT _ params body =>
       free_arg_list body ++ [Alloc.node_array body, Alloc.token_array params]
     | .AST_LAMBDA_EXPRESSION params body =>
       free_arg_list body ++ [Alloc.node_array body, Alloc.token_array params]
     | .AST_MATCH_STATEMENT v arms =>
       free_node v ++ free_arm_list arms ++ [Alloc.arm_array arms]) ++
    [Alloc.node n]
  termination_by x => sizeOf x

/-- The `for` loops over an owned array of child pointers (call
arguments, function and lambda bodies). -/
def free_arg_list : List (Option Node) → List Alloc
  | [] => []
  | a :: rest => free_node a ++ free_arg_list rest
  termination_by l => sizeOf l

/-- The `for` loop over the match arms: each arm's pattern, then its
result expression. -/
def free_arm_list : List (Option Node × Option Node) → List Alloc
  | [] => []
  | (p, e) :: rest => free_node p ++ free_node e ++ free_arm_list rest
  termination_by l => sizeOf l

end

/-- The child pointers held inside a list of match arms, pattern before
result expression, in arm order. -/
def arm_children : List (Option Node × Option Node) → List (Option Node)
  | [] => []
  | arm :: rest => arm.1 :: arm.2 :: arm_children rest

/-- The owned child pointers of a node, in field (destruction) order —
taken from the data model: each node exclusively owns its child
subtrees. -/
def owned_children : Node → List (Option Node)
  | .AST_LITERAL _ => []
  | .AST_BINARY l _ r => [l, r]
  | .AST_UNARY _ r => [r]
  | .AST_VARIABLE _ => []
  | .AST_GROUPING e => [e]
  | .AST_ASSIGNMENT _ v => [v]
  | .AST_CALL c args => c :: args
  | .AST_ERROR => []
  | .AST_LET_STATEMENT _ i => [i]
  | .AST_EXPRESSION_STATEMENT e => [e]
  | .AST_FUNCTION_STATEMENT _ _ body => body
  | .AST_LAMBDA_EXPRESSION _ body => body
  | .AST_MATCH_STATEMENT v arms => v :: arm_children arms

/-- The owned arrays of a node, in destruction order — taken from the
data model: the argument array of a call, the body array then the
parameter array of a function or lambda, the arm array of a match. -/
def owned_arrays : Node → List Alloc
  | .AST_CALL _ args => [Alloc.node_array args]
  | .AST_FUNCTION_STATEMENT _ params body =>
    [Alloc.node_array body, Alloc.token_array params]
  | .AST_LAMBDA_EXPRESSION params body =>
    [Alloc.node_array body, Alloc.token_array params]
  | .AST_MATCH_STATEMENT _ arms => [Alloc.arm_array arms]
  | _ => []

theorem sizeOf_lt_of_mem_arm_children {arms : List (Option Node × Option Node)}
    {c : Option Node} (h : c ∈ arm_children arms) : sizeOf c < sizeOf arms := by
  induction arms with
  | nil => simp [arm_children] at h
  | cons arm rest ih =>
    simp only [arm_children, List.mem_cons] at h
    rcases arm with ⟨p, e⟩
    rcases h with h | h | h
    · subst h
      simp
      try omega
    · subst h
      simp
      try omega
    · have := ih h
      simp
      try omega

theorem sizeOf_lt_of_mem_owned_children {n : Node} {c : Option Node}
    (h : c ∈ owned_children n) : sizeOf c < sizeOf n := by
  cases n with
  | AST_LITERAL t => simp [owned_children] at h
  | AST_BINARY l op r =>
    simp only [owned_children, List.mem_cons, List.not_mem_nil, or_false] at h
    rcases h with h | h
    · subst h
      simp
      try omega
    · subst h
      simp
      try omega
  | AST_UNARY op r =>
    simp only [owned_children, List.mem_singleton] at h
    subst h
    simp
    try omega
  | AST_VARIABLE t => simp [owned_children] at h
  | AST_GROUPING e =>
    simp only [owned_children, List.mem_singleton] at h
    subst h
    simp
    try omega
  | AST_ASSIGNMENT nm v =>
    simp only [owned_children, List.mem_singleton] at h
    subst h
    simp
    try omega
  | AST_CALL c0 args =>
    simp only [owned_children, List.mem_cons] at h
    rcases h with h | h
    · subst h
      simp
      try omega
    · have := List.sizeOf_lt_of_mem h
      simp
      try omega
  | AST_ERROR => simp [owned_children] at h
  | AST_LET_STATEMENT nm i =>
    simp only [owned_children, List.mem_singleton] at h
    subst h
    simp
    try omega
  | AST_EXPRESSION_STATEMENT e =>
    simp only [owned_children, List.mem_singleton] at h
    subst h
    simp
    try omega
  | AST_FUNCTION_STATEMENT nm params body =>
    simp only [owned_children] at h
    have := List.sizeOf_lt_of_mem h
    simp
    try omega
  | AST_LAMBDA_EXPRESSION params body =>
    simp only [owned_children] at h
    have := List.sizeOf_lt_of_mem h
    simp
    try omega
  | AST_MATCH_STATEMENT v arms =>
    simp only [owned_children, List.mem_cons] at h
    rcases h with h | h
    · subst h
      simp
      try omega
    · have := sizeOf_lt_of_mem_arm_children h
      simp
      try omega

/-- The allocations a tree owns, from the ownership discipline of the
data model: nothing for a null pointer; otherwise every owned child
subtree depth-first in field order, then the node's owned arrays, then
the node record itself. -/
def owned_allocs : Option Node → List Alloc
  | none => []
  | some n =>
    ((owned_children n).attach.map (fun c => owned_allocs c.1)).join ++
      owned_arrays n ++ [Alloc.node n]
  termination_by x => sizeOf x
  decreasing_by
    have := sizeOf_lt_of_mem_owned_children c.2
    simp
    try omega

/-- The attach in `owned_allocs` is a termination device only: the
owned allocations of a non-null node are the children's allocations in
order, the owned arrays, and the node itself. -/
theorem owned_allocs_some (n : Node) :
    owned_allocs (some n) =
      ((owned_children n).map owned_allocs).join ++ owned_arrays n ++ [Alloc.node n] := by
  rw [owned_allocs]
  congr 1
  congr 1
  congr 1
  exact List.attach_map_coe _ _

theorem free_arg_list_congr (l : List (Option Node))
    (h : ∀ a ∈ l, free_node a = owned_allocs a) :
    free_arg_list l = (l.map owned_allocs).join := by
  induction l with
  | nil => simp [free_arg_list]
  | cons a rest ih =>
    simp only [free_arg_list, List.map_cons, List.join_cons]
    rw [h a (List.mem_cons_self a rest),
      ih (fun b hb => h b (List.mem_cons_of_mem a hb))]

theorem free_arm_list_congr (arms : List (Option Node × Option Node))
    (h : ∀ c ∈ arm_children arms, free_node c = owned_allocs c) :
    free_arm_list arms = ((arm_children arms).map owned_allocs).join := by
  induction arms with
  | nil => simp [free_arm_list, arm_children]
  | cons arm rest ih =>
    rcases arm with ⟨p, e⟩
    simp only [free_arm_list, arm_children, List.map_cons, List.join_cons]
    rw [h p (by simp [arm_children]), h e (by simp [arm_children]),
      ih (fun c hc => h c (by simp [arm_children]; right; right; exact hc))]
    simp [List.append_assoc]

/-- The destruction trace of `free_node` is exactly the list of owned
allocations of the tree, children first, the node's own record last. -/
theorem free_node_eq_owned_allocs : ∀ x : Option Node, free_node x = owned_allocs x := by
  have key : ∀ k, ∀ x : Option Node, sizeOf x ≤ k → free_node x = owned_allocs x := by
    intro k
    induction k with
    | zero =>
      intro x hx
      match x with
      | none => simp [free_node, owned_allocs]
      | some n => simp at hx
    | succ k ih =>
      intro x hx
      match x with
      | none => simp [free_node, owned_allocs]
      | some n =>
        have hch : ∀ c ∈ owned_children n, free_node c = owned_allocs c := by
          intro c hc
          apply ih
          have h1 := sizeOf_lt_of_mem_owned_children hc
          simp at hx
          omega
        cases n with
        | AST_LITERAL t =>
          simp [free_node, owned_allocs_some, owned_children, owned_arrays]
        | AST_BINARY l op r =>
          have hl := hch l (by simp [owned_children])
          have hr := hch r (by simp [owned_children])
          simp [free_node, owned_allocs_some, owned_children, owned_arrays, hl, hr]
        | AST_UNARY op r =>
          have hr := hch r (by simp [owned_children])
          simp [free_node, owned_allocs_some, owned_children, owned_arrays, hr]
        | AST_VARIABLE t =>
          simp [free_node, owned_allocs_some, owned_children, owned_arrays]
        | AST_GROUPING e =>
          have he := hch e (by simp [owned_children])
          simp [free_node, owned_allocs_some, owned_children, owned_arrays, he]
        | AST_ASSIGNMENT nm v =>
          have hv := hch v (by simp [owned_children])
          simp [free_node, owned_allocs_some, owned_children, owned_arrays, hv]
        | AST_CALL c args =>
          have hc0 := hch c (by simp [owned_children])
          have hargs := free_arg_list_congr args
            (fun a ha => hch a (by simp [owned_children, ha]))
          simp [free_node, owned_allocs_some, owned_children, owned_arrays, hc0, hargs]
        | AST_ERROR =>
          simp [free_node, owned_allocs_some, owned_children, owned_arrays]
        | AST_LET_STATEMENT nm i =>
          have hi := hch i (by simp [owned_children])
          simp [free_node, owned_allocs_some, owned_children, owned_arrays, hi]
        | AST_EXPRESSION_STATEMENT e =>
          have he := hch e (by simp [owned_children])
          simp [free_node, owned_allocs_some, owned_children, owned_arrays, he]
        | AST_FUNCTION_STATEMENT nm params body =>
          have hbody := free_arg_list_congr body
            (fun a ha => hch a (by simp [owned_children, ha]))
          simp [free_node, owned_allocs_some, owned_children, owned_arrays, hbody]
        | AST_LAMBDA_EXPRESSION params body =>
          have hbody := free_arg_list_congr body
            (fun a ha => hch a (by simp [owned_children, ha]))
          simp [free_node, owned_allocs_some, owned_children, owned_arrays, hbody]
        | AST_MATCH_STATEMENT v arms =>
          have hv := hch v (by simp [owned_children])
          have harms := free_arm_list_congr arms
            (fun c hc => hch c (by simp [owned_children]; right; exact hc))
          simp [free_node, owned_allocs_some, owned_children, owned_arrays, hv, harms]
  exact fun x => key (sizeOf x) x (Nat.le_refl _)

end AstH

/-- C10.  `free_node` applied to a null pointer is a no-op (it releases
nothing), and applied to any AST node it releases exactly the
allocations the tree owns — every owned child subtree depth-first in
field order, every owned array (call arguments, parameters, bodies,
match arms) — before releasing the node record itself; in particular a
tree whose child pointers are null (as produced after a parse error)
is destroyed safely, releasing just the node itself. -/
theorem claim_C10_free_node_releases_exactly_what_is_owned :
    AstH.free_node none = [] ∧
    (∀ x : Option AstH.Node, AstH.free_node x = AstH.owned_allocs x) ∧
    AstH.free_node (some (AstH.Node.AST_EXPRESSION_STATEMENT none)) =
      [AstH.Alloc.node (AstH.Node.AST_EXPRESSION_STATEMENT none)] := by
  refine ⟨by simp [AstH.free_node], AstH.free_node_eq_owned_allocs, ?_⟩
  simp [AstH.free_node]
